import Mathlib

/-!
# Shallow embedding of the `microcache` engine (src/microcache/__init__.py)

The cache engine is embedded as pure Lean functions over an explicit state
type.  Python's wall clock (`time.time()`) is threaded through as an explicit
rational parameter `now`; mutation becomes explicit state passing; the two
falsy sentinel objects `CACHE_MISS` and `CACHE_DISABLED` become constructors
of dedicated result types; Python exceptions become `Except`.  Cache keys are
strings (as in the repository's tests) and cached values live in an arbitrary
type `α` with decidable equality.
-/

/-- Result of an operation that is gated on `options.enabled`:
either the operation's normal result, or the `CACHE_DISABLED` sentinel
(`NotObject('CACHE_DISABLED')` in the source, a falsy marker object). -/
inductive Gated (β : Type) where
  | ok : β → Gated β
  | CACHE_DISABLED : Gated β
  deriving DecidableEq, Repr

/-- Python truthiness of a gated boolean: the `CACHE_DISABLED` sentinel is
falsy (`NotObject.__bool__` returns `False`), a plain bool is itself. -/
def Gated.truthy : Gated Bool → Bool
  | .ok b => b
  | .CACHE_DISABLED => false

/-- A Python value as seen by `Microcache.get`: either a genuine cached value,
or one of the two falsy sentinel objects `CACHE_MISS` / `CACHE_DISABLED`. -/
inductive PyVal (α : Type) where
  | v : α → PyVal α
  | CACHE_MISS : PyVal α
  | CACHE_DISABLED : PyVal α
  deriving DecidableEq, Repr

/-- `MicrocacheOptions`: the `enabled` master gate and the `debug` flag
(the latter only affects logging verbosity). -/
structure MicrocacheOptions where
  enabled : Bool
  debug : Bool
  deriving DecidableEq, Repr

/-- A fresh `MicrocacheOptions()`: `_enabled = True`, `_debug = False`. -/
def MicrocacheOptions.init : MicrocacheOptions := ⟨true, false⟩

/-- `MicrocacheItem`: a cached value together with its optional ttl (seconds)
and the `time.time()` timestamp captured at construction. -/
structure MicrocacheItem (α : Type) where
  value : α
  ttl : Option ℚ
  timestamp : ℚ
  deriving DecidableEq, Repr

/-- `MicrocacheItem.is_expired`: `False` when `ttl is None`, otherwise
`time.time() - self.timestamp > self.ttl`. -/
def MicrocacheItem.is_expired (item : MicrocacheItem α) (now : ℚ) : Bool :=
  match item.ttl with
  | none => false
  | some t => decide (now - item.timestamp > t)

/-- Python-dict lookup on the association-list model of `self._dict`. -/
def dictGet (d : List (String × β)) (k : String) : Option β :=
  match d with
  | [] => none
  | (k', v) :: rest => if k' = k then some v else dictGet rest k

/-- Python-dict assignment `d[k] = v`: overwrite in place when the key is
present, append otherwise (insertion order preserved, as CPython does). -/
def dictSet (d : List (String × β)) (k : String) (v : β) : List (String × β) :=
  match d with
  | [] => [(k, v)]
  | (k', v') :: rest =>
      if k' = k then (k, v) :: rest else (k', v') :: dictSet rest k v

/-- Python-dict deletion `del d[k]`. -/
def dictDel (d : List (String × β)) (k : String) : List (String × β) :=
  match d with
  | [] => []
  | (k', v) :: rest => if k' = k then dictDel rest k else (k', v) :: dictDel rest k

/-- The cache engine state: the key→item mapping `self._dict` together with
the engine's `MicrocacheOptions`. -/
structure Microcache (α : Type) where
  dict : List (String × MicrocacheItem α)
  options : MicrocacheOptions
  deriving DecidableEq, Repr

namespace Microcache

/-- `Microcache(options_obj)`: empty dict, the given options. -/
def init (opts : MicrocacheOptions) : Microcache α := ⟨[], opts⟩

/-- `Microcache.has(key)`: `CACHE_DISABLED` when the cache is disabled,
otherwise `key in self._dict.keys() and not self._dict[key].is_expired()`. -/
def has (c : Microcache α) (key : String) (now : ℚ) : Gated Bool :=
  if !c.options.enabled then .CACHE_DISABLED
  else
    .ok (match dictGet c.dict key with
         | none => false
         | some item => !item.is_expired now)

/-- `Microcache.upsert(key, value, ttl=None)`: `CACHE_DISABLED` when the cache
is disabled (no state change), otherwise store a fresh `MicrocacheItem`
(timestamp `now`) under `key` and return `True`. -/
def upsert (c : Microcache α) (key : String) (value : α) (ttl : Option ℚ)
    (now : ℚ) : Gated Bool × Microcache α :=
  if !c.options.enabled then (.CACHE_DISABLED, c)
  else (.ok true, { c with dict := dictSet c.dict key ⟨value, ttl, now⟩ })

/-- `Microcache.get(key, default=CACHE_MISS)`: `CACHE_DISABLED` when the cache
is disabled; otherwise the stored value when `self.has(key)` is truthy, else
the caller's default.  The Python default argument `default=CACHE_MISS` is
passed explicitly as `dflt` by callers that omit it. -/
def get (c : Microcache α) (key : String) (dflt : PyVal α) (now : ℚ) :
    PyVal α :=
  if !c.options.enabled then .CACHE_DISABLED
  else if (c.has key now).truthy then
    match dictGet c.dict key with
    | some item => .v item.value
    | none => dflt
  else dflt

/-- `Microcache.clear(key=None)`: `CACHE_DISABLED` when the cache is disabled
(no state change); otherwise `if key is not None and key in self._dict: del
self._dict[key]` — `elif not key:` (key `None` or falsy, i.e. the empty
string) delete every entry — and return `True` in every case. -/
def clear (c : Microcache α) (key : Option String) :
    Gated Bool × Microcache α :=
  if !c.options.enabled then (.CACHE_DISABLED, c)
  else
    let d :=
      match key with
      | some k =>
          if (dictGet c.dict k).isSome then dictDel c.dict k
          else if k = "" then [] else c.dict
      | none => []
    (.ok true, { c with dict := d })

/-- `Microcache.disable(clear_cache=True)`: when `clear_cache`, first call
`self.clear()` (itself gated on `enabled`), then set `enabled = False`. -/
def disable (c : Microcache α) (clear_cache : Bool) : Microcache α :=
  let c1 := if clear_cache then (c.clear none).2 else c
  { c1 with options := { c1.options with enabled := false } }

/-- `Microcache.enable()`: set `enabled = True`; the dict is untouched. -/
def enable (c : Microcache α) : Microcache α :=
  { c with options := { c.options with enabled := true } }

/-- `Microcache.temporarily_disabled()` as a context manager applied to a
scope body: capture `old_setting = self.options.enabled`, run
`self.disable(clear_cache=False)`, run the body (which returns the final
state and whether it raised), and in the `finally` block restore
`self.options.enabled = old_setting`; a raise in the body propagates. -/
def temporarily_disabled (c : Microcache α)
    (body : Microcache α → Microcache α × Bool) : Microcache α × Bool :=
  let old := c.options.enabled
  let c1 := c.disable false
  let r := body c1
  ({ r.1 with options := { r.1.options with enabled := old } }, r.2)

/-- `Microcache.temporarily_enabled()` as a context manager applied to a
scope body: capture `old_setting`, run `self.enable()`, run the body, and in
the `finally` block restore `self.options.enabled = old_setting`. -/
def temporarily_enabled (c : Microcache α)
    (body : Microcache α → Microcache α × Bool) : Microcache α × Bool :=
  let old := c.options.enabled
  let c1 := c.enable
  let r := body c1
  ({ r.1 with options := { r.1.options with enabled := old } }, r.2)

end Microcache

/-- The module-level convenience wrapper `get(key, default=CACHE_DISABLED)`
(src/microcache/__init__.py line 268): forwards to `CACHE_OBJ.get(key,
default)`.  Note the signature's default really is `CACHE_DISABLED`, even
though its docstring says it defaults to `CACHE_MISS`. -/
def globalGet (c : Microcache α) (key : String) (now : ℚ) : PyVal α :=
  c.get key .CACHE_DISABLED now

/-- The module-level wrapper `has(key)` forwarding to `CACHE_OBJ.has`. -/
def globalHas (c : Microcache α) (key : String) (now : ℚ) : Gated Bool :=
  c.has key now

/-- Boolean lexicographic order on strings viewed as their character lists
(Python's string comparison, used by `sorted` on cache keys). -/
def lexLe : List Char → List Char → Bool
  | [], _ => true
  | _ :: _, [] => false
  | c :: cs, d :: ds =>
      if c < d then true else if d < c then false else lexLe cs ds

/-- Key order on (key, value) pairs: lexicographic on the key. -/
def itemsLe (p q : String × α) : Bool := lexLe p.1.data q.1.data

/-- Modelled from the spec: the engine's `items(path_root=None)` operation is
missing from src/microcache/__init__.py (only src/test_microcache.py calls
it).  Per spec §4.1 it returns all live (non-expired) entries as (key, value)
pairs sorted by key; when `path_root` is given it keeps only keys equal to
`path_root` or beginning with `path_root` followed by a `/` separator; it is
NOT gated on `enabled`. -/
def Microcache.items (c : Microcache α) (path_root : Option String) (now : ℚ) :
    List (String × α) :=
  let keep : String → Bool := fun k =>
    match path_root with
    | none => true
    | some r => k = r || (r ++ "/").data.isPrefixOf k.data
  let live := c.dict.filter (fun p => !p.2.is_expired now && keep p.1)
  (live.map (fun p => (p.1, p.2.value))).insertionSort
    (fun p q => itemsLe p q = true)

/-- Key derivation of the `this` decorator:
`key = key or (func.__name__ + str(args) + str(kwargs))` — the explicit key is
used when it is a truthy string; `None` or the empty string fall back to the
derived key.  `argsRepr` stands for `str(args) + str(kwargs)`. -/
def deriveKey (key : Option String) (funcName : String) (argsRepr : String) :
    String :=
  match key with
  | none => funcName ++ argsRepr
  | some s => if s = "" then funcName ++ argsRepr else s

/-- The memoize decorator `this(func, cache_obj, key=None, ttl=None, *args,
**kwargs)`: derive the key; on a truthy `cache_obj.has(key)` return
`cache_obj.get(key)` without invoking `func`; otherwise invoke `func` (a
raise propagates with nothing stored), then `cache_obj.upsert(key, value,
ttl)` (itself gated on `enabled`) and return the value.  `serialize` stands
for `str(args) + str(kwargs)` applied to the call arguments. -/
def cacheThis (cache_obj : Microcache α) (key : Option String) (ttl : Option ℚ)
    (funcName : String) (serialize : σ → String) (func : σ → Except ε α)
    (args : σ) (now : ℚ) : Except ε (PyVal α) × Microcache α :=
  let k := deriveKey key funcName (serialize args)
  if (cache_obj.has k now).truthy then
    (.ok (cache_obj.get k .CACHE_MISS now), cache_obj)
  else
    match func args with
    | .error e => (.error e, cache_obj)
    | .ok value => (.ok (.v value), (cache_obj.upsert k value ttl now).2)

/-- A fresh enabled engine over string values, `Microcache(MicrocacheOptions())`,
used as concrete input by witnesses. -/
def freshS : Microcache String := Microcache.init MicrocacheOptions.init

/-- The cache state built by `test_Microcache_get_items_with_filter`:
a fresh enabled engine after `upsert('unfoo', 'unbar')`, `upsert('foo',
'bar')`, `upsert('foo/qux', 'baz')` (all at time 0). -/
def itemsDemo : Microcache String :=
  (((freshS.upsert "unfoo" "unbar" none 0).2.upsert "foo" "bar" none
      0).2.upsert "foo/qux" "baz" none 0).2

/-! ## Dictionary lemmas -/

theorem dictGet_dictSet (d : List (String × β)) (k q : String) (v : β) :
    dictGet (dictSet d k v) q = if k = q then some v else dictGet d q := by
  induction d with
  | nil => simp [dictSet, dictGet]
  | cons p rest ih =>
      obtain ⟨k', v'⟩ := p
      simp only [dictSet]
      by_cases hk : k' = k
      · subst hk
        rw [if_pos rfl]
        simp only [dictGet]
        by_cases hq : k' = q <;> simp [hq]
      · rw [if_neg hk]
        simp only [dictGet]
        by_cases hq : k' = q
        · subst hq
          rw [if_pos rfl, if_neg (fun h : k = k' => hk h.symm), if_pos rfl]
        · simp [hq, ih]

theorem dictGet_dictDel (d : List (String × β)) (k q : String) :
    dictGet (dictDel d k) q = if q = k then none else dictGet d q := by
  induction d with
  | nil => simp [dictDel, dictGet]
  | cons p rest ih =>
      obtain ⟨k', v'⟩ := p
      simp only [dictDel]
      by_cases hk : k' = k
      · subst hk
        rw [if_pos rfl, ih]
        simp only [dictGet]
        by_cases hq : q = k'
        · simp [hq]
        · rw [if_neg hq, if_neg hq, if_neg (fun h : k' = q => hq h.symm)]
      · rw [if_neg hk]
        simp only [dictGet]
        by_cases hq : k' = q
        · subst hq
          simp [dictGet, hk]
        · simp [hq, ih]

/-! ## Claim theorems -/

/-- C1: for every engine whose options have `enabled == false`, each of
`has(key)`, `upsert(key, value, ttl)`, `get(key, default)`, and `clear(key)`
returns the `CACHE_DISABLED` sentinel — including `get` when the caller
supplies an explicit default, which is ignored — and the entry store is left
completely unchanged. -/
theorem C1_disabled_ops_are_gated {α : Type} (c : Microcache α)
    (h : c.options.enabled = false) (k : String) (v : α) (ttl : Option ℚ)
    (now : ℚ) (dflt : PyVal α) (ck : Option String) :
    c.has k now = .CACHE_DISABLED ∧
    c.upsert k v ttl now = (.CACHE_DISABLED, c) ∧
    c.get k dflt now = .CACHE_DISABLED ∧
    c.clear ck = (.CACHE_DISABLED, c) := by
  simp [Microcache.has, Microcache.upsert, Microcache.get, Microcache.clear, h]

/-- Witness for C1 at a concrete disabled cache holding one entry; the
explicit default `.v "d"` passed to `get` is ignored. -/
theorem C1_disabled_ops_are_gated_witness :
    (Microcache.mk [("foo", ⟨"bar", none, 0⟩)] ⟨false, false⟩).options.enabled
        = false ∧
    ((Microcache.mk [("foo", ⟨"bar", none, 0⟩)]
        ⟨false, false⟩ : Microcache String).has "foo" 1 = .CACHE_DISABLED ∧
     (Microcache.mk [("foo", ⟨"bar", none, 0⟩)]
        ⟨false, false⟩ : Microcache String).upsert "foo" "baz" none 1 =
        (.CACHE_DISABLED, Microcache.mk [("foo", ⟨"bar", none, 0⟩)] ⟨false, false⟩) ∧
     (Microcache.mk [("foo", ⟨"bar", none, 0⟩)]
        ⟨false, false⟩ : Microcache String).get "foo" (.v "d") 1 = .CACHE_DISABLED ∧
     (Microcache.mk [("foo", ⟨"bar", none, 0⟩)]
        ⟨false, false⟩ : Microcache String).clear (some "foo") =
        (.CACHE_DISABLED, Microcache.mk [("foo", ⟨"bar", none, 0⟩)] ⟨false, false⟩)) :=
  ⟨rfl, C1_disabled_ops_are_gated _ rfl "foo" "baz" none 1 (.v "d") (some "foo")⟩

/-- C5: on a fresh enabled cache, the engine method `Microcache.get` with the
method's own default (`CACHE_MISS`) returns `CACHE_MISS` for a never-upserted
key, but the module-level wrapper `get` — whose signature default is
`CACHE_DISABLED`, contradicting its docstring ("defaults to CACHE_MISS") —
returns `CACHE_DISABLED` at the same input. -/
theorem C5_module_get_default_evaluation :
    (Microcache.init MicrocacheOptions.init : Microcache String).get "nokey"
        .CACHE_MISS 0 = .CACHE_MISS ∧
    globalGet (Microcache.init MicrocacheOptions.init : Microcache String)
        "nokey" 0 = .CACHE_DISABLED := by
  constructor <;> rfl

/-- C7 counterexample: on an enabled cache whose store holds the falsy key
`""` alongside `"a"`, `clear("")` takes the key-present branch and removes
only the `""` entry — the store is not emptied, refuting "clear with the key
omitted or falsy removes all entries" as universally stated. -/
theorem C7_clear_falsy_present_counterexample :
    ((Microcache.mk [("", ⟨"v", none, 0⟩), ("a", ⟨"w", none, 0⟩)]
        ⟨true, false⟩ : Microcache String).clear (some "")).2.dict
      = [("a", ⟨"w", none, 0⟩)] ∧
    ((Microcache.mk [("", ⟨"v", none, 0⟩), ("a", ⟨"w", none, 0⟩)]
        ⟨true, false⟩ : Microcache String).clear (some "")).2.dict ≠ [] := by
  refine ⟨rfl, ?_⟩
  decide

/-- C7 (amended): for every enabled engine, `clear(k)` with `k` given and
present removes exactly that entry (every other key's binding is unchanged) —
even when `k` is falsy, e.g. the present empty string; `clear` with the key
omitted, or with a falsy key that is NOT present, removes all entries; and
`clear` returns true in every case, including when the given key does not
exist in the store. -/
theorem C7_clear_semantics {α : Type} (c : Microcache α)
    (h : c.options.enabled = true) (k q : String)
    (hpres : (dictGet c.dict k).isSome = true) (hq : q ≠ k)
    (c2 : Microcache α) (h2 : c2.options.enabled = true)
    (hemp : dictGet c2.dict "" = none) (ck : Option String) :
    (c.clear (some k)).1 = .ok true ∧
    dictGet (c.clear (some k)).2.dict k = none ∧
    dictGet (c.clear (some k)).2.dict q = dictGet c.dict q ∧
    (c.clear none).2.dict = [] ∧
    (c2.clear (some "")).2.dict = [] ∧
    (c2.clear ck).1 = .ok true := by
  refine ⟨?_, ?_, ?_, ?_, ?_, ?_⟩
  · simp [Microcache.clear, h]
  · simp [Microcache.clear, h, hpres, dictGet_dictDel]
  · simp [Microcache.clear, h, hpres, dictGet_dictDel, hq]
  · simp [Microcache.clear, h]
  · simp [Microcache.clear, h2, hemp]
  · cases ck <;> simp [Microcache.clear, h2]

/-- Witness for C7 (amended) on concrete caches: `{x, y}` with `clear(x)`,
and `{a}` with `clear("")` (absent falsy key) and `clear(zz)` (absent key). -/
theorem C7_clear_semantics_witness :
    ((Microcache.mk [("x", ⟨"vx", none, 0⟩), ("y", ⟨"vy", none, 0⟩)]
        ⟨true, false⟩ : Microcache String).options.enabled = true ∧
     (dictGet [("x", (⟨"vx", none, 0⟩ : MicrocacheItem String)),
        ("y", ⟨"vy", none, 0⟩)] "x").isSome = true ∧
     "y" ≠ "x" ∧
     (Microcache.mk [("a", ⟨"va", none, 0⟩)]
        ⟨true, false⟩ : Microcache String).options.enabled = true ∧
     dictGet [("a", (⟨"va", none, 0⟩ : MicrocacheItem String))] "" = none) ∧
    ((Microcache.mk [("x", ⟨"vx", none, 0⟩), ("y", ⟨"vy", none, 0⟩)]
        ⟨true, false⟩ : Microcache String).clear (some "x")).1 = .ok true ∧
    dictGet ((Microcache.mk [("x", ⟨"vx", none, 0⟩), ("y", ⟨"vy", none, 0⟩)]
        ⟨true, false⟩ : Microcache String).clear (some "x")).2.dict "x" = none ∧
    dictGet ((Microcache.mk [("x", ⟨"vx", none, 0⟩), ("y", ⟨"vy", none, 0⟩)]
        ⟨true, false⟩ : Microcache String).clear (some "x")).2.dict "y"
      = dictGet [("x", (⟨"vx", none, 0⟩ : MicrocacheItem String)),
          ("y", ⟨"vy", none, 0⟩)] "y" ∧
    ((Microcache.mk [("x", ⟨"vx", none, 0⟩), ("y", ⟨"vy", none, 0⟩)]
        ⟨true, false⟩ : Microcache String).clear none).2.dict = [] ∧
    ((Microcache.mk [("a", ⟨"va", none, 0⟩)]
        ⟨true, false⟩ : Microcache String).clear (some "")).2.dict = [] ∧
    ((Microcache.mk [("a", ⟨"va", none, 0⟩)]
        ⟨true, false⟩ : Microcache String).clear (some "zz")).1 = .ok true :=
  ⟨⟨rfl, by decide, by decide, rfl, by decide⟩,
   C7_clear_semantics _ rfl "x" "y" (by decide) (by decide) _ rfl (by decide)
     (some "zz")⟩

/-- C8: from an enabled engine, `disable(clear_cache=True)` sets `enabled` to
false and first clears all entries (while still enabled, so the clear takes
effect); `enable()` sets `enabled` to true and leaves the store untouched,
restoring no previously cleared data. -/
theorem C8_disable_enable {α : Type} (c : Microcache α)
    (h : c.options.enabled = true) (c' : Microcache α) :
    (c.disable true).options.enabled = false ∧
    (c.disable true).dict = [] ∧
    c'.enable.options.enabled = true ∧
    c'.enable.dict = c'.dict := by
  refine ⟨?_, ?_, ?_, ?_⟩ <;>
    simp [Microcache.disable, Microcache.enable, Microcache.clear, h]

/-- Witness for C8: a concrete enabled cache with one entry is disabled (store
emptied), and a concrete disabled cache is re-enabled with its store kept. -/
theorem C8_disable_enable_witness :
    (Microcache.mk [("foo", ⟨"bar", none, 0⟩)]
        ⟨true, false⟩ : Microcache String).options.enabled = true ∧
    ((Microcache.mk [("foo", ⟨"bar", none, 0⟩)]
        ⟨true, false⟩ : Microcache String).disable true).options.enabled = false ∧
    ((Microcache.mk [("foo", ⟨"bar", none, 0⟩)]
        ⟨true, false⟩ : Microcache String).disable true).dict = [] ∧
    (Microcache.mk [("keep", ⟨"kv", none, 0⟩)]
        ⟨false, false⟩ : Microcache String).enable.options.enabled = true ∧
    (Microcache.mk [("keep", ⟨"kv", none, 0⟩)]
        ⟨false, false⟩ : Microcache String).enable.dict
      = [("keep", ⟨"kv", none, 0⟩)] :=
  ⟨rfl, C8_disable_enable _ rfl _⟩

/-- C10: calling `disable(clear_cache=True)` on an already-disabled engine
leaves the entry store unchanged: the internal `clear()` is gated by the
already-false `enabled` flag and returns `CACHE_DISABLED` without removing
anything, and the surviving entries become visible again after a later
`enable()`. -/
theorem C10_redundant_disable_preserves_store {α : Type} (c : Microcache α)
    (h : c.options.enabled = false) (k : String) (now : ℚ) :
    (c.clear none).1 = .CACHE_DISABLED ∧
    (c.clear none).2 = c ∧
    (c.disable true).dict = c.dict ∧
    ((c.disable true).enable).dict = c.dict ∧
    ((c.disable true).enable).has k now
      = .ok (match dictGet c.dict k with
             | none => false
             | some item => !item.is_expired now) := by
  refine ⟨?_, ?_, ?_, ?_, ?_⟩ <;>
    simp [Microcache.clear, Microcache.disable, Microcache.enable,
      Microcache.has, h]

/-- Witness for C10: a disabled cache holding `foo` keeps it through
`disable(clear_cache=True)` and reports it via `has` after `enable()`. -/
theorem C10_redundant_disable_preserves_store_witness :
    (Microcache.mk [("foo", ⟨"bar", none, 0⟩)]
        ⟨false, false⟩ : Microcache String).options.enabled = false ∧
    (((Microcache.mk [("foo", ⟨"bar", none, 0⟩)]
        ⟨false, false⟩ : Microcache String).clear none).1 = .CACHE_DISABLED ∧
     ((Microcache.mk [("foo", ⟨"bar", none, 0⟩)]
        ⟨false, false⟩ : Microcache String).clear none).2
        = Microcache.mk [("foo", ⟨"bar", none, 0⟩)] ⟨false, false⟩ ∧
     ((Microcache.mk [("foo", ⟨"bar", none, 0⟩)]
        ⟨false, false⟩ : Microcache String).disable true).dict
        = [("foo", ⟨"bar", none, 0⟩)] ∧
     (((Microcache.mk [("foo", ⟨"bar", none, 0⟩)]
        ⟨false, false⟩ : Microcache String).disable true).enable).dict
        = [("foo", ⟨"bar", none, 0⟩)] ∧
     (((Microcache.mk [("foo", ⟨"bar", none, 0⟩)]
        ⟨false, false⟩ : Microcache String).disable true).enable).has "foo" 5
        = .ok (match dictGet [("foo", (⟨"bar", none, 0⟩ : MicrocacheItem String))] "foo" with
               | none => false
               | some item => !item.is_expired 5)) :=
  ⟨rfl, C10_redundant_disable_preserves_store _ rfl "foo" 5⟩

/-- C2: on an enabled engine, `upsert(k, v)` returns true, and afterwards
`get(k) == v` and `has(k) == true` at any later time (no ttl, no expiry);
the entry persists across an `upsert` of a different key and across a
`clear` of a different (non-falsy) key; with `upsert(k, v, ttl=t)` (a
nonnegative duration `t`), `has(k)` is true immediately, and once strictly
more than `t` time units have elapsed, `has(k)` is false and `get(k)`
returns the caller's default (the `CACHE_MISS` sentinel when omitted). -/
theorem C2_upsert_get_has {α : Type} (c : Microcache α)
    (h : c.options.enabled = true) (k : String) (v : α) (now now1 : ℚ)
    (dflt : PyVal α) (k2 : String) (hk2 : k2 ≠ k) (hk2e : k2 ≠ "")
    (v2 : α) (ttl2 : Option ℚ)
    (t : ℚ) (ht : 0 ≤ t) (now2 : ℚ) (hexp : now2 - now > t) :
    (c.upsert k v none now).1 = .ok true ∧
    (c.upsert k v none now).2.get k dflt now1 = .v v ∧
    (c.upsert k v none now).2.has k now1 = .ok true ∧
    ((c.upsert k v none now).2.upsert k2 v2 ttl2 now1).2.get k dflt now1
      = .v v ∧
    ((c.upsert k v none now).2.clear (some k2)).2.get k dflt now1 = .v v ∧
    (c.upsert k v (some t) now).2.has k now = .ok true ∧
    (c.upsert k v (some t) now).2.has k now2 = .ok false ∧
    (c.upsert k v (some t) now).2.get k dflt now2 = dflt := by
  refine ⟨?_, ?_, ?_, ?_, ?_, ?_, ?_, ?_⟩
  · simp [Microcache.upsert, h]
  · simp [Microcache.upsert, Microcache.get, Microcache.has, Gated.truthy, h,
      dictGet_dictSet, MicrocacheItem.is_expired]
  · simp [Microcache.upsert, Microcache.has, h, dictGet_dictSet,
      MicrocacheItem.is_expired]
  · simp [Microcache.upsert, Microcache.get, Microcache.has, Gated.truthy, h,
      dictGet_dictSet, hk2, MicrocacheItem.is_expired]
  · have hkk2 : k ≠ k2 := fun hh => hk2 hh.symm
    by_cases hp : (dictGet c.dict k2).isSome = true
    · simp [Microcache.upsert, Microcache.clear, Microcache.get,
        Microcache.has, Gated.truthy, h, hp, dictGet_dictDel, dictGet_dictSet,
        hkk2, MicrocacheItem.is_expired]
    · simp [Microcache.upsert, Microcache.clear, Microcache.get,
        Microcache.has, Gated.truthy, h, hp, hk2e, dictGet_dictSet, hkk2,
        MicrocacheItem.is_expired]
  · simp [Microcache.upsert, Microcache.has, h, dictGet_dictSet,
      MicrocacheItem.is_expired, sub_self]
    exact ht
  · simp [Microcache.upsert, Microcache.has, h, dictGet_dictSet,
      MicrocacheItem.is_expired]
    exact hexp
  · simp [Microcache.upsert, Microcache.get, Microcache.has, Gated.truthy, h,
      dictGet_dictSet, MicrocacheItem.is_expired]
    intro hc
    exact absurd hexp (by simpa using hc)

/-- Witness for C2 on a fresh enabled cache: key `k`, value `v`, insertion at
time 0, later read at time 10; other key `j`; ttl 3 with expiry observed at
time 4. -/
theorem C2_upsert_get_has_witness :
    (freshS.options.enabled = true ∧
     "j" ≠ "k" ∧ "j" ≠ "" ∧ (0 : ℚ) ≤ 3 ∧ (4 : ℚ) - 0 > 3) ∧
    ((freshS.upsert "k" "v" none 0).1 = .ok true ∧
     (freshS.upsert "k" "v" none 0).2.get "k" .CACHE_MISS 10 = .v "v" ∧
     (freshS.upsert "k" "v" none 0).2.has "k" 10 = .ok true ∧
     ((freshS.upsert "k" "v" none 0).2.upsert "j" "w" none 10).2.get "k"
       .CACHE_MISS 10 = .v "v" ∧
     ((freshS.upsert "k" "v" none 0).2.clear (some "j")).2.get "k"
       .CACHE_MISS 10 = .v "v" ∧
     (freshS.upsert "k" "v" (some 3) 0).2.has "k" 0 = .ok true ∧
     (freshS.upsert "k" "v" (some 3) 0).2.has "k" 4 = .ok false ∧
     (freshS.upsert "k" "v" (some 3) 0).2.get "k" .CACHE_MISS 4
       = .CACHE_MISS) :=
  ⟨⟨rfl, by decide, by decide, by norm_num, by norm_num⟩,
   C2_upsert_get_has freshS rfl "k" "v" 0 10 .CACHE_MISS "j" (by decide)
     (by decide) "w" none 3 (by norm_num) 4 (by norm_num)⟩

/-- C3: `temporarily_disabled()` and `temporarily_enabled()` capture the
current `enabled` value on entry, force it to false (resp. true) for the
scope, and restore exactly the captured value on every exit path — the body's
raised flag is propagated unchanged and restoration does not depend on it;
`temporarily_disabled` does not clear any entries; and nesting composes:
from `enabled == true`, the outer scope body starts disabled, a nested
`temporarily_enabled` body starts enabled, exiting the inner scope restores
false, and exiting the outer scope restores true. -/
theorem C3_temporary_overrides {α : Type} (c : Microcache α)
    (h : c.options.enabled = true) (x : Microcache α)
    (f g : Microcache α → Microcache α × Bool) :
    (x.disable false).options.enabled = false ∧
    (x.disable false).dict = x.dict ∧
    x.enable.options.enabled = true ∧
    (x.temporarily_disabled f).1.options.enabled = x.options.enabled ∧
    (x.temporarily_disabled f).2 = (f (x.disable false)).2 ∧
    (x.temporarily_enabled f).1.options.enabled = x.options.enabled ∧
    (x.temporarily_enabled f).2 = (f x.enable).2 ∧
    ((c.disable false).temporarily_enabled g).1.options.enabled = false ∧
    (c.temporarily_disabled fun c1 =>
        c1.temporarily_enabled g).1.options.enabled = true := by
  refine ⟨rfl, rfl, rfl, rfl, rfl, rfl, rfl, rfl, ?_⟩
  exact h

/-- Witness for C3 on the fresh enabled cache, with a raising outer body and
a non-raising inner body. -/
theorem C3_temporary_overrides_witness :
    freshS.options.enabled = true ∧
    ((freshS.disable false).options.enabled = false ∧
     (freshS.disable false).dict = freshS.dict ∧
     freshS.enable.options.enabled = true ∧
     (freshS.temporarily_disabled fun s => (s, true)).1.options.enabled
       = freshS.options.enabled ∧
     (freshS.temporarily_disabled fun s => (s, true)).2
       = ((fun s : Microcache String => (s, true)) (freshS.disable false)).2 ∧
     (freshS.temporarily_enabled fun s => (s, true)).1.options.enabled
       = freshS.options.enabled ∧
     (freshS.temporarily_enabled fun s => (s, true)).2
       = ((fun s : Microcache String => (s, true)) freshS.enable).2 ∧
     ((freshS.disable false).temporarily_enabled
        fun s => (s, false)).1.options.enabled = false ∧
     (freshS.temporarily_disabled fun c1 =>
        c1.temporarily_enabled fun s => (s, false)).1.options.enabled
       = true) :=
  ⟨rfl, C3_temporary_overrides freshS rfl freshS (fun s => (s, true))
    (fun s => (s, false))⟩

/-! ## Lexicographic order lemmas for `items` -/

theorem lexLe_total (a b : List Char) : lexLe a b = true ∨ lexLe b a = true := by
  induction a generalizing b with
  | nil => left; rfl
  | cons x xs ih =>
      cases b with
      | nil => right; rfl
      | cons y ys =>
          by_cases hxy : x < y
          · left; simp [lexLe, hxy]
          · by_cases hyx : y < x
            · right; simp [lexLe, hyx]
            · rcases ih ys with hc | hc
              · left; simp [lexLe, hxy, hyx, hc]
              · right; simp [lexLe, hxy, hyx, hc]

theorem lexLe_trans : ∀ a b c : List Char,
    lexLe a b = true → lexLe b c = true → lexLe a c = true := by
  intro a
  induction a with
  | nil => intro b c _ _; rfl
  | cons x xs ih =>
      intro b c hab hbc
      cases b with
      | nil => simp [lexLe] at hab
      | cons y ys =>
          cases c with
          | nil => simp [lexLe] at hbc
          | cons z zs =>
              simp only [lexLe] at hab hbc ⊢
              by_cases hxy : x < y
              · by_cases hyz : y < z
                · simp [lt_trans hxy hyz]
                · by_cases hzy : z < y
                  · simp [hyz, hzy] at hbc
                  · have hyzeq : y = z := le_antisymm (not_lt.mp hzy) (not_lt.mp hyz)
                    subst hyzeq
                    simp [hxy]
              · by_cases hyx : y < x
                · simp [hxy, hyx] at hab
                · have hxyeq : x = y := le_antisymm (not_lt.mp hyx) (not_lt.mp hxy)
                  subst hxyeq
                  simp only [lt_irrefl, if_false] at hab
                  by_cases hxz : x < z
                  · simp [hxz]
                  · by_cases hzx : z < x
                    · simp [hxz, hzx] at hbc
                    · have hxzeq : x = z := le_antisymm (not_lt.mp hzx) (not_lt.mp hxz)
                      subst hxzeq
                      simp only [lt_irrefl, if_false] at hbc ⊢
                      exact ih ys zs hab hbc

theorem itemsLe_isTotal {α : Type} :
    IsTotal (String × α) (fun p q => itemsLe p q = true) :=
  ⟨fun a b => lexLe_total a.1.data b.1.data⟩

theorem itemsLe_isTrans {α : Type} :
    IsTrans (String × α) (fun p q => itemsLe p q = true) :=
  ⟨fun a b c hab hbc => lexLe_trans a.1.data b.1.data c.1.data hab hbc⟩

/-- C6 (spec-modelled, as `items` is absent from src/microcache/__init__.py):
`items(path_root, now)` returns live (non-expired) entries as (key, value)
pairs sorted lexicographically by key; every returned pair comes from a
non-expired stored entry, and every live entry is returned (shown for the
unfiltered listing); with `path_root = r` every returned key equals `r` or
begins with `r` followed by `/`; the operation ignores the `enabled` flag;
and on the store of `test_Microcache_get_items_with_filter`,
`items(path_root='foo')` is `[('foo','bar'), ('foo/qux','baz')]`, excluding
`unfoo`. -/
theorem C6_items {α : Type} (c : Microcache α) (pr : Option String) (now : ℚ)
    (r : String) (kv : String × α) (hmem : kv ∈ c.items (some r) now)
    (kv2 : String × α) (hmem2 : kv2 ∈ c.items pr now)
    (k0 : String) (item : MicrocacheItem α) (hin : (k0, item) ∈ c.dict)
    (hlive : item.is_expired now = false)
    (d : List (String × MicrocacheItem α)) (o o' : MicrocacheOptions) :
    (c.items pr now).Pairwise (fun p q => itemsLe p q = true) ∧
    (kv.1 = r ∨ (r ++ "/").data.isPrefixOf kv.1.data = true) ∧
    (∃ it : MicrocacheItem α, (kv2.1, it) ∈ c.dict ∧
      it.is_expired now = false ∧ it.value = kv2.2) ∧
    (k0, item.value) ∈ c.items none now ∧
    (Microcache.mk d o).items pr now = (Microcache.mk d o').items pr now ∧
    itemsDemo.items (some "foo") 0 = [("foo", "bar"), ("foo/qux", "baz")] ∧
    itemsDemo.items none 0
      = [("foo", "bar"), ("foo/qux", "baz"), ("unfoo", "unbar")] := by
  refine ⟨?_, ?_, ?_, ?_, rfl, by decide, by decide⟩
  · haveI := itemsLe_isTotal (α := α)
    haveI := itemsLe_isTrans (α := α)
    exact List.sorted_insertionSort _ _
  · simp only [Microcache.items] at hmem
    have hmem' := (List.perm_insertionSort _ _).mem_iff.mp hmem
    simp only [List.mem_map, List.mem_filter, Bool.and_eq_true,
      Bool.or_eq_true, decide_eq_true_eq] at hmem'
    obtain ⟨p, ⟨_, _, hkeep⟩, hpe⟩ := hmem'
    subst hpe
    exact hkeep
  · simp only [Microcache.items] at hmem2
    have hmem2' := (List.perm_insertionSort _ _).mem_iff.mp hmem2
    simp only [List.mem_map, List.mem_filter, Bool.and_eq_true] at hmem2'
    obtain ⟨p, ⟨hpin, hplive, _⟩, hpe⟩ := hmem2'
    subst hpe
    exact ⟨p.2, hpin, by simpa using hplive, rfl⟩
  · simp only [Microcache.items]
    refine (List.perm_insertionSort _ _).mem_iff.mpr ?_
    simp only [List.mem_map, List.mem_filter, Bool.and_eq_true]
    exact ⟨(k0, item), ⟨hin, by simp [hlive], by simp⟩, rfl⟩

/-- Witness for C6 on the `test_Microcache_get_items_with_filter` store:
the pair `('foo/qux','baz')` in the filtered listing, the pair
`('unfoo','unbar')` in the unfiltered listing, and the stored entry for
`'foo'`. -/
theorem C6_items_witness :
    (("foo/qux", "baz") ∈ itemsDemo.items (some "foo") 0 ∧
     ("unfoo", "unbar") ∈ itemsDemo.items none 0 ∧
     ("foo", (⟨"bar", none, 0⟩ : MicrocacheItem String)) ∈ itemsDemo.dict ∧
     (⟨"bar", none, 0⟩ : MicrocacheItem String).is_expired 0 = false) ∧
    (itemsDemo.items none 0).Pairwise (fun p q => itemsLe p q = true) ∧
    ((("foo/qux", "baz") : String × String).1 = "foo" ∨
      ("foo" ++ "/").data.isPrefixOf
        (("foo/qux", "baz") : String × String).1.data = true) ∧
    (∃ it : MicrocacheItem String,
      ((("unfoo", "unbar") : String × String).1, it) ∈ itemsDemo.dict ∧
      it.is_expired 0 = false ∧
      it.value = (("unfoo", "unbar") : String × String).2) ∧
    ("foo", (⟨"bar", none, 0⟩ : MicrocacheItem String).value)
      ∈ itemsDemo.items none 0 ∧
    (Microcache.mk itemsDemo.dict ⟨true, false⟩).items none 0
      = (Microcache.mk itemsDemo.dict ⟨false, false⟩).items none 0 ∧
    itemsDemo.items (some "foo") 0 = [("foo", "bar"), ("foo/qux", "baz")] ∧
    itemsDemo.items none 0
      = [("foo", "bar"), ("foo/qux", "baz"), ("unfoo", "unbar")] :=
  ⟨⟨by decide, by decide, by decide, by decide⟩,
   C6_items itemsDemo none 0 "foo" ("foo/qux", "baz") (by decide)
     ("unfoo", "unbar") (by decide) "foo" ⟨"bar", none, 0⟩ (by decide)
     (by decide) itemsDemo.dict ⟨true, false⟩ ⟨false, false⟩⟩

/-- Left-cancellation of string concatenation, used for distinctness of
derived memoization keys. -/
theorem string_append_left_cancel {a b c : String} (h : a ++ b = a ++ c) :
    b = c := by
  have hd := congrArg String.data h
  simp only [String.data_append, List.append_cancel_left_eq] at hd
  exact String.ext hd

/-- C4: the memoize adapter.  On a truthy `engine.has(key)` it returns
`engine.get(key)` without invoking the wrapped callable (the result is the
same for any two callables) and leaves the store untouched; on a miss it
invokes the callable, stores the result via `upsert(key, value, ttl)` when
the engine is enabled, and returns the callable's result even when the
engine is disabled and the store is unchanged; a second call with the same
arguments is a hit that returns the cached value for any wrapped callable
without changing the store; and a call with arguments serializing
differently (no explicit key) invokes the callable again and caches under
the distinct derived key, leaving the first entry intact. -/
theorem C4_memoize {α σ ε : Type} (c : Microcache α) (key : Option String)
    (ttl ttl2 : Option ℚ) (fn : String) (ser : σ → String)
    (f g : σ → Except ε α) (a b : σ) (now now' : ℚ) (v w : α)
    (chit : Microcache α)
    (hhit : (chit.has (deriveKey key fn (ser a)) now).truthy = true)
    (cmiss : Microcache α)
    (hmiss : (cmiss.has (deriveKey key fn (ser a)) now).truthy = false)
    (hfa : f a = .ok v)
    (cdis : Microcache α) (hdis : cdis.options.enabled = false)
    (hen : c.options.enabled = true)
    (hA : dictGet c.dict (fn ++ ser a) = none)
    (hB : dictGet c.dict (fn ++ ser b) = none)
    (hne : ser b ≠ ser a) (hgb : g b = .ok w) :
    cacheThis chit key ttl fn ser f a now
      = (.ok (chit.get (deriveKey key fn (ser a)) .CACHE_MISS now), chit) ∧
    cacheThis chit key ttl fn ser f a now
      = cacheThis chit key ttl fn ser g a now ∧
    cacheThis cmiss key ttl fn ser f a now
      = (.ok (.v v), (cmiss.upsert (deriveKey key fn (ser a)) v ttl now).2) ∧
    cacheThis cdis key ttl fn ser f a now = (.ok (.v v), cdis) ∧
    cacheThis ((cacheThis c none none fn ser f a now).2) none ttl2 fn ser g a
        now'
      = (.ok (.v v), (cacheThis c none none fn ser f a now).2) ∧
    cacheThis ((cacheThis c none none fn ser f a now).2) none ttl2 fn ser g b
        now'
      = (.ok (.v w),
         (((cacheThis c none none fn ser f a now).2).upsert (fn ++ ser b) w
            ttl2 now').2) ∧
    dictGet ((((cacheThis c none none fn ser f a now).2).upsert (fn ++ ser b)
        w ttl2 now').2).dict (fn ++ ser a) = some ⟨v, none, now⟩ := by
  have hBA : fn ++ ser b ≠ fn ++ ser a :=
    fun hh => hne (string_append_left_cancel hh)
  have hAB : fn ++ ser a ≠ fn ++ ser b := fun hh => hBA hh.symm
  refine ⟨?_, ?_, ?_, ?_, ?_, ?_, ?_⟩
  · simp [cacheThis, hhit]
  · simp [cacheThis, hhit]
  · simp [cacheThis, hmiss, hfa]
  · simp [cacheThis, Microcache.has, Microcache.upsert, Gated.truthy, hdis,
      hfa]
  · simp [cacheThis, deriveKey, Microcache.has, Microcache.upsert,
      Microcache.get, Gated.truthy, hen, hA, hfa, dictGet_dictSet,
      MicrocacheItem.is_expired]
  · simp [cacheThis, deriveKey, Microcache.has, Microcache.upsert,
      Microcache.get, Gated.truthy, hen, hA, hB, hfa, hgb, dictGet_dictSet,
      hAB, MicrocacheItem.is_expired]
  · simp [cacheThis, deriveKey, Microcache.has, Microcache.upsert,
      Gated.truthy, hen, hA, hfa, dictGet_dictSet, hAB, hBA,
      MicrocacheItem.is_expired]

/-- Witness for C4: callables returning `vx` / `vy` over string arguments
serialized by `id`, function name `f`, arguments `x` and `y`; hit state with
key `fx` pre-populated, miss state fresh, disabled state with `enabled =
false`. -/
theorem C4_memoize_witness :
    (((freshS.upsert "fx" "hv" none 0).2.has
        (deriveKey none "f" (id "x")) 0).truthy = true ∧
      (freshS.has (deriveKey none "f" (id "x")) 0).truthy = false ∧
      (fun _ : String => (Except.ok "vx" : Except ℕ String)) "x" = .ok "vx" ∧
      (Microcache.mk [] ⟨false, false⟩ : Microcache String).options.enabled
        = false ∧
      freshS.options.enabled = true ∧
      dictGet freshS.dict ("f" ++ id "x") = none ∧
      dictGet freshS.dict ("f" ++ id "y") = none ∧
      id "y" ≠ id "x" ∧
      (fun _ : String => (Except.ok "vy" : Except ℕ String)) "y" = .ok "vy") ∧
    cacheThis (freshS.upsert "fx" "hv" none 0).2 none none "f" id
        (fun _ : String => (Except.ok "vx" : Except ℕ String)) "x" 0
      = (.ok ((freshS.upsert "fx" "hv" none 0).2.get
          (deriveKey none "f" (id "x")) .CACHE_MISS 0),
         (freshS.upsert "fx" "hv" none 0).2) ∧
    cacheThis (freshS.upsert "fx" "hv" none 0).2 none none "f" id
        (fun _ : String => (Except.ok "vx" : Except ℕ String)) "x" 0
      = cacheThis (freshS.upsert "fx" "hv" none 0).2 none none "f" id
          (fun _ : String => (Except.ok "vy" : Except ℕ String)) "x" 0 ∧
    cacheThis freshS none none "f" id
        (fun _ : String => (Except.ok "vx" : Except ℕ String)) "x" 0
      = (.ok (.v "vx"),
         (freshS.upsert (deriveKey none "f" (id "x")) "vx" none 0).2) ∧
    cacheThis (Microcache.mk [] ⟨false, false⟩) none none "f" id
        (fun _ : String => (Except.ok "vx" : Except ℕ String)) "x" 0
      = (.ok (.v "vx"), Microcache.mk [] ⟨false, false⟩) ∧
    cacheThis ((cacheThis freshS none none "f" id
        (fun _ : String => (Except.ok "vx" : Except ℕ String)) "x" 0).2) none
        none "f" id (fun _ : String => (Except.ok "vy" : Except ℕ String))
        "x" 1
      = (.ok (.v "vx"),
         (cacheThis freshS none none "f" id
            (fun _ : String => (Except.ok "vx" : Except ℕ String)) "x" 0).2) ∧
    cacheThis ((cacheThis freshS none none "f" id
        (fun _ : String => (Except.ok "vx" : Except ℕ String)) "x" 0).2) none
        none "f" id (fun _ : String => (Except.ok "vy" : Except ℕ String))
        "y" 1
      = (.ok (.v "vy"),
         (((cacheThis freshS none none "f" id
              (fun _ : String => (Except.ok "vx" : Except ℕ String)) "x"
              0).2).upsert ("f" ++ id "y") "vy" none 1).2) ∧
    dictGet ((((cacheThis freshS none none "f" id
        (fun _ : String => (Except.ok "vx" : Except ℕ String)) "x"
        0).2).upsert ("f" ++ id "y") "vy" none 1).2).dict ("f" ++ id "x")
      = some ⟨"vx", none, 0⟩ :=
  ⟨⟨by decide, by decide, rfl, rfl, rfl, by decide, by decide, by decide,
    rfl⟩,
   C4_memoize freshS none none none "f" id
     (fun _ : String => (Except.ok "vx" : Except ℕ String))
     (fun _ : String => (Except.ok "vy" : Except ℕ String)) "x" "y" 0 1 "vx"
     "vy" (freshS.upsert "fx" "hv" none 0).2 (by decide) freshS (by decide)
     rfl (Microcache.mk [] ⟨false, false⟩) rfl rfl (by decide) (by decide)
     (by decide) rfl⟩

/-- C9: when the wrapped callable raises on the miss path, the memoize
adapter propagates the failure unchanged and stores nothing — the returned
engine state is exactly the input state. -/
theorem C9_raise_propagates {α σ ε : Type} (c : Microcache α)
    (key : Option String) (ttl : Option ℚ) (fn : String) (ser : σ → String)
    (f : σ → Except ε α) (a : σ) (now : ℚ) (e : ε)
    (hmiss : (c.has (deriveKey key fn (ser a)) now).truthy = false)
    (hf : f a = .error e) :
    cacheThis c key ttl fn ser f a now = (.error e, c) := by
  simp [cacheThis, hmiss, hf]

/-- Witness for C9: a callable that raises `7` on the fresh cache; the error
propagates and the store is unchanged. -/
theorem C9_raise_propagates_witness :
    ((freshS.has (deriveKey none "f" (id "x")) 0).truthy = false ∧
     (fun _ : String => (Except.error 7 : Except ℕ String)) "x"
       = .error 7) ∧
    cacheThis freshS none none "f" id
        (fun _ : String => (Except.error 7 : Except ℕ String)) "x" 0
      = (.error 7, freshS) :=
  ⟨⟨by decide, rfl⟩,
   C9_raise_propagates freshS none none "f" id
     (fun _ : String => (Except.error 7 : Except ℕ String)) "x" 0 7
     (by decide) rfl⟩
